import Mathlib

/-!
Shallow embedding of `target_singer_jsonl/__init__.py`, a Singer-protocol
"target" that buffers schema/record lines per stream and flushes them to a
local or s3 destination at end of input.

JSON values are modelled as a mutual inductive family (`Json`, `JsonList`,
`JsonObj`), objects as insertion-ordered association lists, matching Python
dict semantics (`d[k] = v` replaces in place or appends).  JSON numbers are
modelled as integers, sufficient for every claim considered here.
-/

namespace TargetSingerJsonl

mutual

inductive Json where
  | null : Json
  | bool : Bool → Json
  | num : Int → Json
  | str : String → Json
  | arr : JsonList → Json
  | obj : JsonObj → Json
deriving DecidableEq

inductive JsonList where
  | nil : JsonList
  | cons : Json → JsonList → JsonList
deriving DecidableEq

inductive JsonObj where
  | nil : JsonObj
  | cons : String → Json → JsonObj → JsonObj
deriving DecidableEq

end

/-- Lookup of a key in a JSON object, models Python `d[k]` / `d.get(k)`
(first binding wins; objects built here have distinct keys). -/
def JsonObj.get : JsonObj → String → Option Json
  | .nil, _ => none
  | .cons k v rest, key => if k = key then some v else rest.get key

/-- Models Python `d[k] = v`: replace in place if the key exists, else append. -/
def JsonObj.set : JsonObj → String → Json → JsonObj
  | .nil, key, val => .cons key val .nil
  | .cons k v rest, key, val =>
    if k = key then .cons k val rest else .cons k v (rest.set key val)

/-- Models Python `d.update(pairs)` where `pairs` is a dict literal written in
the given order. -/
def JsonObj.updateWith (o : JsonObj) (pairs : List (String × Json)) : JsonObj :=
  pairs.foldl (fun acc kv => acc.set kv.1 kv.2) o

def JsonObj.ofList : List (String × Json) → JsonObj
  | [] => .nil
  | (k, v) :: rest => .cons k v (ofList rest)

def JsonList.ofList : List Json → JsonList
  | [] => .nil
  | j :: rest => .cons j (ofList rest)

/-- Convenience constructor for object literals. -/
def Json.mkObj (l : List (String × Json)) : Json := .obj (JsonObj.ofList l)

/-- Convenience constructor for array literals. -/
def Json.mkArr (l : List Json) : Json := .arr (JsonList.ofList l)

/-- Models `message[k]` / `message.get(k)` on a JSON value: key lookup when the
value is an object, nothing otherwise. -/
def jget (j : Json) (k : String) : Option Json :=
  match j with
  | .obj o => o.get k
  | _ => none

/-- Models Python `k in message` for object values. -/
def hasKeyB (j : Json) (k : String) : Bool := (jget j k).isSome

/-- Models `j[k] = v` on a JSON object value (no-op on non-objects; every use
site guards for objects). -/
def jset (j : Json) (k : String) (v : Json) : Json :=
  match j with
  | .obj o => .obj (o.set k v)
  | _ => j

/-- Python truthiness of a JSON value, as used by `if add_record_metadata:`
(`None`, `False`, `0`, `""`, `[]` and `\x7b\x7d` are falsy). -/
def truthy : Json → Bool
  | .null => false
  | .bool b => b
  | .num n => n ≠ 0
  | .str s => s ≠ ""
  | .arr l => l ≠ .nil
  | .obj o => o ≠ .nil

/-- Whether a JSON value is hashable in Python (usable as a dict key); lists
and dicts are not. -/
def hashableJ : Json → Bool
  | .arr _ => false
  | .obj _ => false
  | _ => true

/-- Python `str()` / f-string rendering of a scalar JSON value, used when
building filenames.  Arrays/objects are unreachable at the call sites (an
unhashable stream name fails earlier); they render as an empty string. -/
def pyStr : Json → String
  | .str s => s
  | .num n => toString n
  | .bool true => "True"
  | .bool false => "False"
  | .null => "None"
  | .arr _ => ""
  | .obj _ => ""

/-- Hexadecimal digit. -/
def hexDigit (n : Nat) : Char :=
  if n < 10 then Char.ofNat (48 + n) else Char.ofNat (87 + n)

/-- Four-digit hexadecimal rendering, for JSON `\uXXXX` escapes. -/
def hex4 (n : Nat) : String :=
  String.mk [hexDigit (n / 4096 % 16), hexDigit (n / 256 % 16),
             hexDigit (n / 16 % 16), hexDigit (n % 16)]

/-- Escape of one character inside a JSON string, following `json.dumps`
defaults (`ensure_ascii=True`). -/
def escChar (c : Char) : String :=
  if c = '"' then "\\\""
  else if c = '\\' then "\\\\"
  else if c = '\n' then "\\n"
  else if c = '\t' then "\\t"
  else if c = '\r' then "\\r"
  else if c.toNat = 8 then "\\b"
  else if c.toNat = 12 then "\\f"
  else if c.toNat < 32 then "\\u" ++ hex4 c.toNat
  else if c.toNat < 127 then String.mk [c]
  else if c.toNat < 65536 then "\\u" ++ hex4 c.toNat
  else
    "\\u" ++ hex4 (55296 + (c.toNat - 65536) / 1024) ++
    "\\u" ++ hex4 (56320 + (c.toNat - 65536) % 1024)

/-- JSON string literal as emitted by `json.dumps`. -/
def dumpStr (s : String) : String :=
  "\"" ++ String.join (s.toList.map escChar) ++ "\""

mutual

/-- Models `json.dumps` with its default separators (item separator
`", "`, key separator `": "`), preserving object key order. -/
def dumps : Json → String
  | .null => "null"
  | .bool true => "true"
  | .bool false => "false"
  | .num n => toString n
  | .str s => dumpStr s
  | .arr xs => "[" ++ dumpsList xs ++ "]"
  | .obj kvs => "\x7b" ++ dumpsObj kvs ++ "\x7d"

def dumpsList : JsonList → String
  | .nil => ""
  | .cons x .nil => dumps x
  | .cons x rest => dumps x ++ ", " ++ dumpsList rest

def dumpsObj : JsonObj → String
  | .nil => ""
  | .cons k v .nil => dumpStr k ++ ": " ++ dumps v
  | .cons k v rest => dumpStr k ++ ": " ++ dumps v ++ ", " ++ dumpsObj rest

end

/-- Errors raised by the target.  The first six are the specification's error
taxonomy; `keyError`, `typeError` and `attributeError` model unhandled Python
exceptions escaping from raw dict/builtin operations. -/
inductive Err where
  | malformedMessage : String → Err
  | missingField : String → Err
  | unknownMessageType : Json → Err
  | missingSchema : Json → Err
  | schemaValidationError : Json → Err
  | unsupportedDestination : Json → Err
  | keyError : String → Err
  | typeError : String → Err
  | attributeError : String → Err
deriving DecidableEq

/-- Whether an error belongs to the specification's six-kind taxonomy (7.
ERROR HANDLING DESIGN); raw `KeyError`/`TypeError`/`AttributeError` escapes
do not. -/
def isSpecErrorKind : Err → Bool
  | .keyError _ => false
  | .typeError _ => false
  | .attributeError _ => false
  | _ => true

/-- Lookup in an insertion-ordered association list (a Python dict whose keys
are arbitrary hashable JSON values). -/
def getAssoc {α : Type} (m : List (Json × α)) (k : Json) : Option α :=
  match m with
  | [] => none
  | (k', v) :: rest => if k' = k then some v else getAssoc rest k

/-- Models `d[k] = v` on a Python dict: replace in place or append. -/
def updAssoc {α : Type} (m : List (Json × α)) (k : Json) (v : α) : List (Json × α) :=
  match m with
  | [] => [(k, v)]
  | (k', v') :: rest =>
    if k' = k then (k', v) :: rest else (k', v') :: updAssoc rest k v

/-- Models whether a Draft-4 primitive type name matches a JSON value
(booleans are not integers; integers count as numbers). -/
def typeMatches (t : String) (j : Json) : Bool :=
  match j with
  | .null => t = "null"
  | .bool _ => t = "boolean"
  | .num _ => t = "integer" || t = "number"
  | .str _ => t = "string"
  | .arr _ => t = "array"
  | .obj _ => t = "object"

/-- A `"type"` schema keyword: a single type name or a list of them. -/
def typeConstraint (v : Json) (record : Json) : Bool :=
  match v with
  | .str t => typeMatches t record
  | .arr ts => anyTypeMatches ts record
  | _ => true
where
  anyTypeMatches : JsonList → Json → Bool
  | .nil, _ => false
  | .cons (.str t) rest, r => typeMatches t r || anyTypeMatches rest r
  | .cons _ rest, r => anyTypeMatches rest r

/-- A `"required"` schema keyword: every named field must be present on an
object instance (ignored on non-objects, per Draft 4). -/
def requiredConstraint (v : Json) (record : Json) : Bool :=
  match v, record with
  | .arr rs, .obj _ => allRequired rs record
  | _, _ => true
where
  allRequired : JsonList → Json → Bool
  | .nil, _ => true
  | .cons (.str k) rest, r => hasKeyB r k && allRequired rest r
  | .cons _ rest, r => allRequired rest r

mutual

/-- Modelled from the spec: the external `jsonschema.Draft4Validator`
collaborator ("Draft-4 dialect semantics: type checking, required fields,
format hints, nested object/array rules").  The subset modelled — `type`,
`properties` (recursing into sub-schemas) and `required` — covers every
schema any claim exercises; other keywords are treated as satisfied. -/
def validateJ : Json → Json → Bool
  | .obj kvs, record => validateKVs kvs record
  | _, _ => true
termination_by structural j => j

def validateKVs : JsonObj → Json → Bool
  | .nil, _ => true
  | .cons k v rest, record =>
    (if k = "type" then typeConstraint v record
     else if k = "properties" then propsConstraint v record
     else if k = "required" then requiredConstraint v record
     else true) && validateKVs rest record
termination_by structural o => o

def propsConstraint : Json → Json → Bool
  | .obj props, record => propsAll props record
  | _, _ => true
termination_by structural j => j

def propsAll : JsonObj → Json → Bool
  | .nil, _ => true
  | .cons k sub rest, record =>
    (match jget record k with
     | some fieldVal => validateJ sub fieldVal
     | none => true) && propsAll rest record
termination_by structural o => o

end

/-- Run environment: the module-level timestamps captured at import time and
the wall clock consumed once per enriched record (`datetime.now()` and
`time.time()`, indexed by how many records have been enriched so far). -/
structure Env where
  file_timestamp : String
  target_start_timestamp : String
  nowIso : Nat → String
  epochMillis : Nat → Int

/-- The module-level globals that survive a `persist_lines` call:
`stream_files` (stream name → resolved output path) and `stream_lines`
(stream name → buffered serialized lines). -/
structure Globals where
  stream_files : List (Json × String)
  stream_lines : List (Json × List String)
deriving DecidableEq

/-- The locals of one `persist_lines` call: `state`, `schemas`,
`key_properties`, `validators` (a validator is determined by the schema
document it was compiled from, which the code aliases and mutates in place,
so it is stored here as that document), plus a clock tick counting enriched
records. -/
structure Locals where
  state : Option Json
  schemas : List (Json × Json)
  key_properties : List (Json × Json)
  validators : List (Json × Json)
  tick : Nat
deriving DecidableEq

/-- Fresh locals at the top of `persist_lines`. -/
def Locals.start : Locals := ⟨none, [], [], [], 0⟩

/-- Result of processing one input message: globals and locals after all
mutations up to the point of any raise, the value submitted to
`validators[stream].validate` (when that call was reached), and the raised
error, if any. -/
structure StepOut where
  g : Globals
  loc : Locals
  validated : Option Json
  err : Option Err
deriving DecidableEq

/-- The six ingestion-metadata fields written onto a record
(`record.update(...)` at lines 148-159 of the source), in the order of the
dict literal: `_sdc_received_at` and `_sdc_batched_at` share one
`datetime.now()` call; `_sdc_extracted_at` falls back to the run start
timestamp; `_sdc_deleted_at` copies any pre-existing value (default null);
`_sdc_sequence` is epoch milliseconds; `_sdc_table_version` is the message's
`version` (default null). -/
def sdcPairs (env : Env) (tick : Nat) (message record : Json) : List (String × Json) :=
  let now := env.nowIso tick
  [("_sdc_extracted_at", (jget message "time_extracted").getD (.str env.target_start_timestamp)),
   ("_sdc_received_at", .str now),
   ("_sdc_batched_at", .str now),
   ("_sdc_deleted_at", (jget record "_sdc_deleted_at").getD .null),
   ("_sdc_sequence", .num (env.epochMillis tick)),
   ("_sdc_table_version", (jget message "version").getD .null)]

/-- The names of the six ingestion-metadata fields. -/
def sdcKeys : List String :=
  ["_sdc_extracted_at", "_sdc_received_at", "_sdc_batched_at",
   "_sdc_deleted_at", "_sdc_sequence", "_sdc_table_version"]

/-- Property definition injected for the four date-time metadata columns. -/
def dtColSchema : Json :=
  Json.mkObj [("type", Json.mkArr [.str "null", .str "string"]),
              ("format", .str "date-time")]

/-- Property definition injected for the two integer metadata columns. -/
def intColSchema : Json :=
  Json.mkObj [("type", Json.mkArr [.str "null", .str "integer"])]

/-- The six property definitions injected into a schema's `properties` when
metadata is enabled (source lines 171-184; the Python code iterates two set
literals, whose iteration order is unspecified — this model fixes the literal
order, which no claim depends on). -/
def metaCols : List (String × Json) :=
  [("_sdc_extracted_at", dtColSchema), ("_sdc_received_at", dtColSchema),
   ("_sdc_batched_at", dtColSchema), ("_sdc_deleted_at", dtColSchema),
   ("_sdc_sequence", intColSchema), ("_sdc_table_version", intColSchema)]

/-- Appends one serialized line to a stream's buffer
(`stream_lines[stream].append(...)`). -/
def appendLine (m : List (Json × List String)) (s : Json) (line : String) :
    List (Json × List String) :=
  updAssoc m s ((getAssoc m s).getD [] ++ [line])

/-- The `t == "RECORD"` branch (source lines 134-162): missing-schema check,
`message["record"]` lookup, validation of the raw record, then (metadata
permitting) in-place enrichment — which, via aliasing, also rewrites
`message["record"]` — then `state = None` and the buffer append of
`json.dumps(message)`. -/
def recordBranch (env : Env) (flag : Json) (g : Globals) (loc : Locals)
    (message : Json) (s : Json) : StepOut :=
  if (getAssoc loc.schemas s).isSome = false then
    ⟨g, loc, none, some (.missingSchema s)⟩
  else
    match jget message "record" with
    | none => ⟨g, loc, none, some (.keyError "record")⟩
    | some record =>
      match getAssoc loc.validators s with
      | none => ⟨g, loc, none, some (.keyError (pyStr s))⟩
      | some vschema =>
        if validateJ vschema record = false then
          ⟨g, loc, some record, some (.schemaValidationError s)⟩
        else
          if truthy flag then
            match record with
            | .obj robj =>
              let record2 := Json.obj (robj.updateWith (sdcPairs env loc.tick message record))
              let message2 := jset message "record" record2
              ⟨{ g with stream_lines := appendLine g.stream_lines s (dumps message2) },
               { loc with state := none, tick := loc.tick + 1 }, some record, none⟩
            | _ => ⟨g, loc, some record, some (.attributeError "update")⟩
          else
            ⟨{ g with stream_lines := appendLine g.stream_lines s (dumps message) },
             { loc with state := none }, some record, none⟩

/-- The `t == "SCHEMA"` branch (source lines 164-186): store the schema and
compile its validator first, then require `key_properties`, then (metadata
permitting) mutate `schema["properties"]` in place — which, via aliasing,
also rewrites the stored schema, the validator's schema and
`message["schema"]` — then append `json.dumps(message)` to the buffer. -/
def schemaBranch (_env : Env) (flag : Json) (g : Globals) (loc : Locals)
    (message : Json) (s : Json) : StepOut :=
  match jget message "schema" with
  | none => ⟨g, loc, none, some (.keyError "schema")⟩
  | some doc =>
    let loc1 := { loc with schemas := updAssoc loc.schemas s doc,
                           validators := updAssoc loc.validators s doc }
    if hasKeyB message "key_properties" = false then
      ⟨g, loc1, none, some (.missingField "key_properties")⟩
    else
      let kp := (jget message "key_properties").getD .null
      let loc2 := { loc1 with key_properties := updAssoc loc1.key_properties s kp }
      if truthy flag then
        match doc with
        | .obj _ =>
          match jget doc "properties" with
          | none => ⟨g, loc2, none, some (.keyError "properties")⟩
          | some props =>
            match props with
            | .obj pobj =>
              let props2 := Json.obj (pobj.updateWith metaCols)
              let doc2 := jset doc "properties" props2
              let loc3 := { loc2 with schemas := updAssoc loc2.schemas s doc2,
                                      validators := updAssoc loc2.validators s doc2 }
              let message2 := jset message "schema" doc2
              ⟨{ g with stream_lines := appendLine g.stream_lines s (dumps message2) },
               loc3, none, none⟩
            | _ => ⟨g, loc2, none, some (.typeError "does not support item assignment")⟩
        | _ => ⟨g, loc2, none, some (.typeError "not subscriptable")⟩
      else
        ⟨{ g with stream_lines := appendLine g.stream_lines s (dumps message) },
         loc2, none, none⟩

/-- One iteration of the `persist_lines` loop on an already-parsed message
(source lines 121-196): require `type`; for non-`STATE` types require
`stream` and ensure a (possibly empty) buffer entry exists; dispatch to the
record / schema / state branches; any other type raises carrying its value.
Non-object messages raise a `TypeError` when `in` is applied to them (claims
only exercise object messages). -/
def processMessage (env : Env) (flag : Json) (g : Globals) (loc : Locals)
    (message : Json) : StepOut :=
  match message with
  | .obj _ =>
    if hasKeyB message "type" = false then
      ⟨g, loc, none, some (.missingField "type")⟩
    else
      let t := (jget message "type").getD .null
      if t = .str "STATE" then
        match jget message "value" with
        | none => ⟨g, loc, none, some (.keyError "value")⟩
        | some v => ⟨g, { loc with state := some v }, none, none⟩
      else
        if hasKeyB message "stream" = false then
          ⟨g, loc, none, some (.missingField "stream")⟩
        else
          let s := (jget message "stream").getD .null
          if hashableJ s = false then
            ⟨g, loc, none, some (.typeError "unhashable type")⟩
          else
            let g1 :=
              if (getAssoc g.stream_lines s).isSome then g
              else { g with stream_lines := g.stream_lines ++ [(s, [])] }
            if t = .str "RECORD" then recordBranch env flag g1 loc message s
            else if t = .str "SCHEMA" then schemaBranch env flag g1 loc message s
            else ⟨g1, loc, none, some (.unknownMessageType t)⟩
  | _ => ⟨g, loc, none, some (.typeError "argument of type is not iterable")⟩

/-- Source `join_slash`: right-strip slashes from the left part, left-strip
from the right part, join with a single slash. -/
def join_slash (a b : String) : String :=
  (a.dropRightWhile (· = '/')) ++ "/" ++ (b.dropWhile (· = '/'))

/-- Source `urljoin`: fold `join_slash` over the arguments, empty string for
no arguments. -/
def urljoin (args : List String) : String :=
  match args with
  | [] => ""
  | a :: rest => rest.foldl join_slash a

/-- Models `pathlib.Path(folder).joinpath(filename)` (trailing slashes on the
folder are collapsed by `Path`). -/
def pathJoin (folder filename : String) : String :=
  let f := folder.dropRightWhile (· = '/')
  if f = "" then (if folder = "" then filename else "/" ++ filename) else f ++ "/" ++ filename

/-- One committed output artifact: a resolved path and the lines written to
it (each line is terminated with a newline by the writer loop). -/
structure WriteAction where
  path : String
  lines : List String
deriving DecidableEq

/-- Source `get_file_path`: build `<stream>/<stream>-<file_timestamp>.singer.gz`
and resolve it under the `local` folder or the `s3` bucket/prefix; any other
destination raises (`KeyError(f"Destination ... not supported.")`, the
specification's `UnsupportedDestination`).  Missing config keys escape as raw
`KeyError`s; a non-string local folder fails in the `Path` constructor. -/
def get_file_path (stream destination config : Json) (ts : String) : Except Err String :=
  let filename := pyStr stream ++ "/" ++ pyStr stream ++ "-" ++ ts ++ ".singer.gz"
  if destination = .str "local" then
    match jget config "folder" with
    | none => .error (.keyError "folder")
    | some (.str folder) => .ok (pathJoin folder filename)
    | some _ => .error (.typeError "argument should be a str")
  else if destination = .str "s3" then
    match jget config "bucket" with
    | none => .error (.keyError "bucket")
    | some bucket =>
      match jget config "prefix" with
      | none => .error (.keyError "prefix")
      | some pfx =>
        .ok (urljoin ["s3://" ++ pyStr bucket ++ "/" ++ pyStr pfx ++ "/", filename])
  else .error (.unsupportedDestination destination)

/-- Source `write_lines_local`: resolve and cache the output path on first
need, then write every buffered line followed by a newline (the `mkdir` and
the file handle are external collaborators; the committed content is
returned as a `WriteAction`). -/
def write_lines_local (destination config stream : Json) (lines : List String)
    (ts : String) (g : Globals) : Except Err (Globals × Option WriteAction) :=
  match getAssoc g.stream_files stream with
  | some path => .ok (g, some ⟨path, lines⟩)
  | none =>
    match get_file_path stream destination config ts with
    | .error e => .error e
    | .ok path =>
      .ok ({ g with stream_files := updAssoc g.stream_files stream path },
           some ⟨path, lines⟩)

/-- Source `write_lines_s3`: identical to the local writer except for the
`mkdir` (path resolution and caching are shared). -/
def write_lines_s3 (destination config stream : Json) (lines : List String)
    (ts : String) (g : Globals) : Except Err (Globals × Option WriteAction) :=
  match getAssoc g.stream_files stream with
  | some path => .ok (g, some ⟨path, lines⟩)
  | none =>
    match get_file_path stream destination config ts with
    | .error e => .error e
    | .ok path =>
      .ok ({ g with stream_files := updAssoc g.stream_files stream path },
           some ⟨path, lines⟩)

/-- Source `write_lines`: dispatch on `config.get("destination", "local")`.
Only `local` and `s3` are routed; any other destination value falls off the
end of the `if`/`elif` chain and the function returns `None` — no write and
no error. -/
def write_lines (config stream : Json) (lines : List String) (ts : String)
    (g : Globals) : Except Err (Globals × Option WriteAction) :=
  let destination := (jget config "destination").getD (.str "local")
  if destination = .str "local" then
    match jget config "local" with
    | none => .error (.keyError "local")
    | some sub => write_lines_local destination sub stream lines ts g
  else if destination = .str "s3" then
    match jget config "s3" with
    | none => .error (.keyError "s3")
    | some sub => write_lines_s3 destination sub stream lines ts g
  else .ok (g, none)

/-- Models the expression `len[messages]` at source line 199: it subscripts
the builtin function `len` instead of calling it, so evaluating it always
raises `TypeError`. -/
def len_subscript (_messages : List String) : Except Err Nat :=
  .error (.typeError "builtin_function_or_method object is not subscriptable")

/-- The flush loop at source lines 198-200: for each buffered stream, guard
`len[messages] > 1` (whose evaluation raises) and commit via `write_lines`. -/
def flushLoop (config : Json) (ts : String) :
    List (Json × List String) → Globals → Globals × List WriteAction × Option Err
  | [], g => (g, [], none)
  | (s, messages) :: rest, g =>
    match len_subscript messages with
    | .error e => (g, [], some e)
    | .ok n =>
      if n > 1 then
        match write_lines config s messages ts g with
        | .error e => (g, [], some e)
        | .ok (g1, act) =>
          let (g2, ws, e2) := flushLoop config ts rest g1
          (g2, act.toList ++ ws, e2)
      else flushLoop config ts rest g

/-- The message loop of `persist_lines`: process messages in order, stopping
at the first raise and keeping all mutations made up to it. -/
def runLoop (env : Env) (flag : Json) :
    List Json → Globals → Locals → Globals × Locals × Option Err
  | [], g, loc => (g, loc, none)
  | m :: rest, g, loc =>
    let out := processMessage env flag g loc m
    match out.err with
    | some e => (out.g, out.loc, some e)
    | none => runLoop env flag rest out.g out.loc

/-- Result of a `persist_lines` call: the surviving globals, the loop's final
`state` local (returned by the Python function only when no error was
raised), the committed artifacts, and the raised error, if any. -/
structure RunResult where
  g : Globals
  state : Option Json
  writes : List WriteAction
  err : Option Err
deriving DecidableEq

/-- Source `persist_lines`: read `add_record_metadata` with default `True`,
run the message loop, then walk `stream_lines` committing buffers, and
return the final `state`.  Input is the list of already-parsed messages
(`json.loads` is an external collaborator; a line it rejects aborts the run
with `MalformedMessage`, which no claim exercises). -/
def persistLines (env : Env) (config : Json) (messages : List Json)
    (g0 : Globals) : RunResult :=
  let flag := (jget config "add_record_metadata").getD (.bool true)
  let (g1, loc, lerr) := runLoop env flag messages g0 Locals.start
  match lerr with
  | some e => ⟨g1, loc.state, [], some e⟩
  | none =>
    let (g2, writes, ferr) := flushLoop config env.file_timestamp g1.stream_lines g1
    ⟨g2, loc.state, writes, ferr⟩

/-- Source `emit_state`: when the state is not `None`, write exactly one
newline-terminated compact-JSON line to stdout (modelled as the list of
written lines). -/
def emit_state (state : Option Json) : List String :=
  match state with
  | none => []
  | some s => [dumps s ++ "\n"]

/-- A concrete run environment for evaluating the model on the
specification's scenarios. -/
def testEnv : Env :=
  { file_timestamp := "20240101T000000",
    target_start_timestamp := "2024-01-01T00:00:00",
    nowIso := fun n => "2024-01-01T00:00:0" ++ toString n,
    epochMillis := fun n => Int.ofNat n }

/-- Empty globals: the module state of a freshly started process. -/
def emptyGlobals : Globals := ⟨[], []⟩

/-- The `properties` object of the Scenario A `users` schema. -/
def usersPropsObj : JsonObj :=
  JsonObj.ofList [("id", Json.mkObj [("type", .str "integer")])]

/-- The `users` schema document of the specification's Scenario A, as an
object. -/
def usersSchemaDocObj : JsonObj :=
  JsonObj.ofList [("type", .str "object"), ("properties", .obj usersPropsObj)]

/-- The `users` schema document of the specification's Scenario A. -/
def usersSchemaDoc : Json := .obj usersSchemaDocObj

/-- Scenario A schema message, as an object. -/
def usersSchemaMsgObj : JsonObj :=
  JsonObj.ofList [("type", .str "SCHEMA"), ("stream", .str "users"),
                  ("schema", usersSchemaDoc), ("key_properties", Json.mkArr [.str "id"])]

/-- Scenario A schema message. -/
def usersSchemaMsg : Json := .obj usersSchemaMsgObj

/-- The raw Scenario A record value as it arrives on the wire, and its
underlying object. -/
def rawIdRecordObj : JsonObj := JsonObj.ofList [("id", .num 1)]

/-- The raw Scenario A record value. -/
def rawIdRecord : Json := .obj rawIdRecordObj

/-- Scenario A record message, as an object. -/
def usersRecordMsgObj : JsonObj :=
  JsonObj.ofList [("type", .str "RECORD"), ("stream", .str "users"),
                  ("record", rawIdRecord)]

/-- Scenario A record message. -/
def usersRecordMsg : Json := .obj usersRecordMsgObj

/-- Scenario A state value and message. -/
def usersStateVal : Json := Json.mkObj [("users", Json.mkObj [("id", .num 1)])]

/-- Scenario A state message. -/
def usersStateMsg : Json := Json.mkObj [("type", .str "STATE"), ("value", usersStateVal)]

/-- Scenario A input: schema, record, state. -/
def scenarioA : List Json := [usersSchemaMsg, usersRecordMsg, usersStateMsg]

/-- A config routing to the local destination. -/
def cfgLocal : Json :=
  Json.mkObj [("destination", .str "local"),
              ("local", Json.mkObj [("folder", .str "output")])]

/-- A config naming a destination with no implementation. -/
def cfgGcs : Json := Json.mkObj [("destination", .str "gcs")]

/-- All six metadata field names are present after enrichment. -/
def hasAllSdc (j : Json) : Bool := sdcKeys.all (fun k => hasKeyB j k)

/-- The step output of registering the Scenario A schema from a fresh state
with metadata enabled. -/
def afterSchemaA : StepOut :=
  processMessage testEnv (.bool true) emptyGlobals Locals.start usersSchemaMsg

/-- The step output of processing the Scenario A record right after the
schema registration. -/
def recordStepA : StepOut :=
  processMessage testEnv (.bool true) afterSchemaA.g afterSchemaA.loc usersRecordMsg

/-- A schema message lacking `key_properties`, as an object. -/
def schemaMsgNoKPObj : JsonObj :=
  JsonObj.ofList [("type", .str "SCHEMA"), ("stream", .str "s"),
                  ("schema", usersSchemaDoc)]

/-- A schema message lacking `key_properties`. -/
def schemaMsgNoKP : Json := .obj schemaMsgNoKPObj

/-- A message with an unknown type value and no `stream` field, as an
object. -/
def fooMsgNoStreamObj : JsonObj := JsonObj.ofList [("type", .str "FOO")]

/-- A message with an unknown type value and no `stream` field. -/
def fooMsgNoStream : Json := .obj fooMsgNoStreamObj

/-- A message with an unknown type value that does carry a `stream` field. -/
def fooMsgWithStreamObj : JsonObj :=
  JsonObj.ofList [("type", .str "FOO"), ("stream", .str "users")]

/-- Scenario C: a record for `orders`, a stream with no schema, while
another stream (`users`) does have one. -/
def ordersRecordMsgObj : JsonObj :=
  JsonObj.ofList [("type", .str "RECORD"), ("stream", .str "orders"),
                  ("record", Json.mkObj [])]

/-- A run state in which only the `users` stream has a registered schema. -/
def locUsersOnly : Locals := ⟨none, [(.str "users", usersSchemaDoc)], [], [], 0⟩

/-- A schema message whose schema document has no `properties` key, as an
object. -/
def noPropsSchemaMsgObj : JsonObj :=
  JsonObj.ofList [("type", .str "SCHEMA"), ("stream", .str "t"),
                  ("schema", Json.mkObj [("type", .str "object")]),
                  ("key_properties", Json.mkArr [])]

/-- One `persist_lines` call on Scenario A from a fresh process. -/
def runOnce : RunResult := persistLines testEnv cfgLocal scenarioA emptyGlobals

/-- A second identical `persist_lines` call in the same process: the
module-level globals surviving the first call are its starting state. -/
def runTwice : RunResult := persistLines testEnv cfgLocal scenarioA runOnce.g

theorem JsonObj.get_set_self : ∀ (o : JsonObj) (k : String) (v : Json),
    (o.set k v).get k = some v
  | .nil, k, v => by simp [JsonObj.set, JsonObj.get]
  | .cons k' v' rest, k, v => by
    by_cases h : k' = k
    · simp [JsonObj.set, h, JsonObj.get]
    · simp [JsonObj.set, h, JsonObj.get, JsonObj.get_set_self rest k v]

theorem JsonObj.get_set_ne : ∀ (o : JsonObj) (k k' : String) (v : Json), k' ≠ k →
    (o.set k' v).get k = o.get k
  | .nil, k, k', v, hne => by simp [JsonObj.set, JsonObj.get, hne]
  | .cons a b rest, k, k', v, hne => by
    by_cases ha : a = k'
    · subst ha
      have hak : a ≠ k := hne
      simp [JsonObj.set, JsonObj.get, hak]
    · simp [JsonObj.set, ha, JsonObj.get, JsonObj.get_set_ne rest k k' v hne]

theorem JsonObj.get_set_isSome (o : JsonObj) (k k' : String) (v : Json)
    (h : (o.get k).isSome = true) : ((o.set k' v).get k).isSome = true := by
  by_cases hk : k' = k
  · subst hk; simp [JsonObj.get_set_self]
  · rw [JsonObj.get_set_ne o k k' v hk]; exact h

theorem JsonObj.get_updateWith_isSome : ∀ (pairs : List (String × Json)) (o : JsonObj)
    (k : String), (o.get k).isSome = true →
    ((o.updateWith pairs).get k).isSome = true
  | [], _, _, h => h
  | (k', v') :: rest, o, k, h =>
    JsonObj.get_updateWith_isSome rest (o.set k' v') k (JsonObj.get_set_isSome o k k' v' h)

theorem JsonObj.get_updateWith_mem : ∀ (pairs : List (String × Json)) (o : JsonObj)
    (k : String), k ∈ pairs.map Prod.fst →
    ((o.updateWith pairs).get k).isSome = true
  | [], _, _, h => by simp at h
  | (k', v') :: rest, o, k, h => by
    rw [List.map_cons] at h
    rcases List.mem_cons.mp h with heq | hmem
    · subst heq
      exact JsonObj.get_updateWith_isSome rest (o.set k v') k
        (by simp [JsonObj.get_set_self])
    · exact JsonObj.get_updateWith_mem rest (o.set k' v') k hmem

theorem sdcPairs_keys (env : Env) (tick : Nat) (message record : Json) :
    (sdcPairs env tick message record).map Prod.fst = sdcKeys := rfl

theorem metaCols_keys : metaCols.map Prod.fst = sdcKeys := rfl

/-- Enriching any JSON object with the metadata pairs leaves all six
`_sdc_*` keys present. -/
theorem hasAllSdc_sdcPairs (env : Env) (tick : Nat) (message record : Json)
    (o : JsonObj) :
    hasAllSdc (.obj (o.updateWith (sdcPairs env tick message record))) = true := by
  simp only [hasAllSdc, sdcKeys, List.all_cons, List.all_nil, Bool.and_eq_true,
    hasKeyB, jget]
  refine ⟨?_, ?_, ?_, ?_, ?_, ?_, trivial⟩ <;>
    exact JsonObj.get_updateWith_mem _ o _ (by rw [sdcPairs_keys]; simp [sdcKeys])

/-- Augmenting any properties object with the metadata columns leaves all six
`_sdc_*` keys present. -/
theorem hasAllSdc_metaCols (o : JsonObj) :
    hasAllSdc (.obj (o.updateWith metaCols)) = true := by
  simp only [hasAllSdc, sdcKeys, List.all_cons, List.all_nil, Bool.and_eq_true,
    hasKeyB, jget]
  refine ⟨?_, ?_, ?_, ?_, ?_, ?_, trivial⟩ <;>
    exact JsonObj.get_updateWith_mem _ o _ (by rw [metaCols_keys]; simp [sdcKeys])

theorem getAssoc_updAssoc_self {α : Type} : ∀ (m : List (Json × α)) (k : Json) (v : α),
    getAssoc (updAssoc m k v) k = some v
  | [], k, v => by simp [updAssoc, getAssoc]
  | (k', v') :: rest, k, v => by
    by_cases hk : k' = k
    · simp [updAssoc, getAssoc, hk]
    · simp [updAssoc, getAssoc, hk, getAssoc_updAssoc_self rest k v]

theorem getAssoc_append_self {α : Type} : ∀ (m : List (Json × α)) (s : Json) (v : α),
    getAssoc m s = none → getAssoc (m ++ [(s, v)]) s = some v
  | [], s, v, _ => by simp [getAssoc]
  | (k, w) :: rest, s, v, h => by
    by_cases hk : k = s
    · simp [getAssoc, hk] at h
    · simpa [getAssoc, hk] using getAssoc_append_self rest s v (by simpa [getAssoc, hk] using h)

/-- The dispatcher's lazy `stream_lines[stream] = []` initialization never
changes the stream's buffered content. -/
theorem getD_streamInit (g : Globals) (s : Json) :
    (getAssoc (if (getAssoc g.stream_lines s).isSome then g
      else { g with stream_lines := g.stream_lines ++ [(s, [])] }).stream_lines s).getD [] =
    (getAssoc g.stream_lines s).getD [] := by
  by_cases hc : (getAssoc g.stream_lines s).isSome
  · simp [hc]
  · have hnone : getAssoc g.stream_lines s = none := by
      cases hgs : getAssoc g.stream_lines s with
      | none => rfl
      | some v => rw [hgs] at hc; simp at hc
    simp [hc, getAssoc_append_self g.stream_lines s [] hnone, hnone]

/-- C1: the claim says that on Scenario A (schema for `users`, one conforming
record, one state message) `persist_lines` completes without error and
commits one artifact for `users` holding the schema line and the record
line.  The code instead always raises `TypeError` in the flush loop: line
199 reads `len[messages]`, subscripting the builtin function `len`, so the
run aborts before any artifact is committed.  This theorem evaluates the
model at that failing input: the buffered lines for `users` exist, but the
run ends in the `TypeError` with zero committed writes. -/
theorem c1_scenarioA_flush_raises :
    (persistLines testEnv cfgLocal scenarioA emptyGlobals).err =
      some (.typeError "builtin_function_or_method object is not subscriptable") ∧
    (persistLines testEnv cfgLocal scenarioA emptyGlobals).writes = [] ∧
    ((getAssoc (persistLines testEnv cfgLocal scenarioA emptyGlobals).g.stream_lines
      (.str "users")).getD []).length = 2 := by
  refine ⟨rfl, rfl, rfl⟩

/-- C2: the claim says a config whose destination is neither `local` nor
`s3` makes flushing a non-trivial buffer raise `UnsupportedDestination`
rather than silently skipping the write.  In the code that error lives only
in `get_file_path`; `write_lines` dispatches on the destination first and
has no `else` branch, so for destination `"gcs"` it returns `None` without
writing or raising — the error is unreachable from the flush path.  This
theorem shows `write_lines` silently succeeding with no write for `"gcs"`,
while `get_file_path` itself, called directly, does raise the error. -/
theorem c2_write_lines_silent_skip :
    write_lines cfgGcs (.str "users") ["schema-line", "record-line"]
      "20240101T000000" emptyGlobals = .ok (emptyGlobals, none) ∧
    get_file_path (.str "users") (.str "gcs") cfgGcs "20240101T000000" =
      .error (.unsupportedDestination (.str "gcs")) := by
  refine ⟨rfl, rfl⟩

/-- C4: the claim says the checkpoint returned at end of input equals the
last `State` value when no `Record` follows it, with exactly one line then
emitted.  On Scenario A the loop does leave `state` holding the last
`State` value, but `persist_lines` raises `TypeError` at the flush loop's
`len[messages]` before reaching its `return`, so nothing is returned and
`emit_state` is never invoked.  This theorem evaluates the model at that
failing input. -/
theorem c4_state_survives_but_run_raises :
    (persistLines testEnv cfgLocal scenarioA emptyGlobals).state = some usersStateVal ∧
    (persistLines testEnv cfgLocal scenarioA emptyGlobals).err =
      some (.typeError "builtin_function_or_method object is not subscriptable") := by
  refine ⟨rfl, rfl⟩

/-- C3 counterexample: the claim says that with metadata enrichment enabled
the shape submitted to the validator already contains the six `_sdc_*`
fields.  Processing the Scenario A record (accepted, no error) submits the
raw record `\x7b"id": 1\x7d` to the validator, which carries none of the
six fields: validation runs before enrichment, not after. -/
theorem c3_validator_sees_raw_record :
    recordStepA.validated = some rawIdRecord ∧
    hasAllSdc rawIdRecord = false ∧
    recordStepA.err = none := by
  refine ⟨rfl, rfl, rfl⟩

/-- C5 counterexample: the claim says a `stream` field is required only for
`SCHEMA` and `RECORD` messages and that any type outside the three known
kinds signals `UnknownMessageType`.  The message
`\x7b"type": "FOO"\x7d` has a type outside the three kinds and no stream;
the code raises `MissingField("stream")` — the stream requirement applies
to every non-`STATE` type and fires before the unknown-type check. -/
theorem c5_unknown_type_missing_stream_counterexample :
    (processMessage testEnv (.bool true) emptyGlobals Locals.start fooMsgNoStream).err =
      some (.missingField "stream") ∧
    (processMessage testEnv (.bool true) emptyGlobals Locals.start fooMsgNoStream).err ≠
      some (.unknownMessageType (.str "FOO")) := by
  refine ⟨rfl, by decide⟩

/-- C6 counterexample: the claim says the `key_properties` check precedes
storing the `StreamEntry`, so that on `MissingField("key_properties")` the
registry for that stream is unchanged.  Processing a schema message for
stream `s` with a schema but no `key_properties` raises that error, yet the
registry already holds the new schema for `s`: the store happens first. -/
theorem c6_registry_mutated_counterexample :
    (processMessage testEnv (.bool true) emptyGlobals Locals.start schemaMsgNoKP).err =
      some (.missingField "key_properties") ∧
    getAssoc (processMessage testEnv (.bool true) emptyGlobals Locals.start
      schemaMsgNoKP).loc.schemas (.str "s") = some usersSchemaDoc := by
  refine ⟨rfl, rfl⟩

/-- C10 counterexample: the claim says two identical `persist_lines` calls in
one process do not produce the same artifacts, the second re-committing the
first call's buffers.  Both calls abort in the flush loop (`len[messages]`)
before committing anything, so both produce exactly the same artifacts:
none. -/
theorem c10_second_run_same_artifacts :
    runTwice.writes = runOnce.writes ∧ runOnce.writes = [] := by
  refine ⟨rfl, rfl⟩

/-- C10 amended: `persist_lines` is indeed not a function of its arguments —
`stream_lines` survives the call, and the second identical run observes the
first run's buffered lines and appends duplicates (the `users` buffer
doubles) — but because the flush stage always raises before writing, neither
run commits any artifact. -/
theorem c10_globals_survive_buffers_double :
    (getAssoc runTwice.g.stream_lines (.str "users")).getD [] =
      (getAssoc runOnce.g.stream_lines (.str "users")).getD [] ++
      (getAssoc runOnce.g.stream_lines (.str "users")).getD [] ∧
    (getAssoc runOnce.g.stream_lines (.str "users")).getD [] ≠ [] ∧
    runOnce.err.isSome = true ∧
    runTwice.err = runOnce.err ∧
    runOnce.writes = [] ∧ runTwice.writes = [] := by
  refine ⟨rfl, by decide, rfl, rfl, rfl, rfl⟩

/-- C7: a `RECORD` message for a stream with no registered schema always
raises the missing-schema error carrying the stream name, whatever the rest
of the run state — in particular whatever schemas other streams have
registered (`loc` is arbitrary). -/
theorem c7_record_without_schema_raises (env : Env) (flag : Json) (g : Globals)
    (loc : Locals) (mo : JsonObj) (s : Json)
    (ht : jget (.obj mo) "type" = some (.str "RECORD"))
    (hs : jget (.obj mo) "stream" = some s)
    (hh : hashableJ s = true)
    (hnone : getAssoc loc.schemas s = none) :
    (processMessage env flag g loc (.obj mo)).err = some (.missingSchema s) := by
  simp [processMessage, recordBranch, hasKeyB, ht, hs, hh, hnone]

/-- C7 witness: the specification's Scenario C — a record for `orders` with
no prior schema, while `users` does have a registered schema — raises
`MissingSchema("orders")`. -/
theorem c7_record_without_schema_raises_witness :
    (processMessage testEnv (.bool true) emptyGlobals locUsersOnly
      (.obj ordersRecordMsgObj)).err = some (.missingSchema (.str "orders")) :=
  c7_record_without_schema_raises testEnv (.bool true) emptyGlobals locUsersOnly
    ordersRecordMsgObj (.str "orders") rfl rfl rfl rfl

/-- C5 amended: the `stream` field is required for every non-`STATE`
message, unknown types included — a message whose type lies outside the
three known kinds raises `MissingField("stream")` when `stream` is absent,
and `UnknownMessageType` carrying the type value when a (hashable) `stream`
is present. -/
theorem c5_stream_required_for_all_non_state (env : Env) (flag : Json)
    (g : Globals) (loc : Locals)
    (mo1 : JsonObj) (t1 : Json)
    (ht1 : jget (.obj mo1) "type" = some t1)
    (hst1 : t1 ≠ .str "STATE")
    (hs1 : jget (.obj mo1) "stream" = none)
    (mo2 : JsonObj) (t2 : Json) (s2 : Json)
    (ht2 : jget (.obj mo2) "type" = some t2)
    (hst2 : t2 ≠ .str "STATE")
    (hsc2 : t2 ≠ .str "SCHEMA")
    (hrc2 : t2 ≠ .str "RECORD")
    (hs2 : jget (.obj mo2) "stream" = some s2)
    (hh2 : hashableJ s2 = true) :
    (processMessage env flag g loc (.obj mo1)).err = some (.missingField "stream") ∧
    (processMessage env flag g loc (.obj mo2)).err = some (.unknownMessageType t2) := by
  constructor
  · simp [processMessage, hasKeyB, ht1, hst1, hs1]
  · simp [processMessage, hasKeyB, ht2, hst2, hsc2, hrc2, hs2, hh2]

/-- C5 witness: an unknown-type message without `stream` raises
`MissingField("stream")`; the same unknown type with a `stream` raises
`UnknownMessageType("FOO")`. -/
theorem c5_stream_required_for_all_non_state_witness :
    (processMessage testEnv (.bool true) emptyGlobals Locals.start
      (.obj fooMsgNoStreamObj)).err = some (.missingField "stream") ∧
    (processMessage testEnv (.bool true) emptyGlobals Locals.start
      (.obj fooMsgWithStreamObj)).err = some (.unknownMessageType (.str "FOO")) :=
  c5_stream_required_for_all_non_state testEnv (.bool true) emptyGlobals Locals.start
    fooMsgNoStreamObj (.str "FOO") rfl (by decide) rfl
    fooMsgWithStreamObj (.str "FOO") (.str "users") rfl (by decide) (by decide)
    (by decide) rfl rfl

/-- C6 amended: the `key_properties` check runs after the schema store and
validator compilation but before the `key_properties` store, the metadata
augmentation and the buffer append — so on `MissingField("key_properties")`
the stream's schema and validator entries are already overwritten, while its
`key_properties` entry and its buffered lines are unchanged. -/
theorem c6_key_properties_check_after_store (env : Env) (flag : Json)
    (g : Globals) (loc : Locals) (mo : JsonObj) (s : Json) (doc : Json)
    (ht : jget (.obj mo) "type" = some (.str "SCHEMA"))
    (hs : jget (.obj mo) "stream" = some s)
    (hh : hashableJ s = true)
    (hd : jget (.obj mo) "schema" = some doc)
    (hkp : hasKeyB (.obj mo) "key_properties" = false) :
    (processMessage env flag g loc (.obj mo)).err = some (.missingField "key_properties") ∧
    (processMessage env flag g loc (.obj mo)).loc.schemas = updAssoc loc.schemas s doc ∧
    (processMessage env flag g loc (.obj mo)).loc.validators = updAssoc loc.validators s doc ∧
    (processMessage env flag g loc (.obj mo)).loc.key_properties = loc.key_properties ∧
    (getAssoc (processMessage env flag g loc (.obj mo)).g.stream_lines s).getD [] =
      (getAssoc g.stream_lines s).getD [] := by
  have hred : processMessage env flag g loc (.obj mo) =
      ⟨if (getAssoc g.stream_lines s).isSome then g
       else { g with stream_lines := g.stream_lines ++ [(s, [])] },
       { loc with schemas := updAssoc loc.schemas s doc,
                  validators := updAssoc loc.validators s doc },
       none, some (.missingField "key_properties")⟩ := by
    simp [processMessage, schemaBranch, hasKeyB, ht, hs, hh, hd] at hkp ⊢
    simp [hkp]
  rw [hred]
  refine ⟨rfl, rfl, rfl, rfl, ?_⟩
  by_cases hc : (getAssoc g.stream_lines s).isSome
  · simp [hc]
  · have hnone : getAssoc g.stream_lines s = none := by
      cases hgs : getAssoc g.stream_lines s with
      | none => rfl
      | some v => rw [hgs] at hc; simp at hc
    simp [hc, getAssoc_append_self g.stream_lines s [] hnone, hnone]

/-- C6 amended witness: on the schema message for `s` lacking
`key_properties`, processed from a fresh state, the error is raised with the
schema and validator entries already written and the buffer untouched. -/
theorem c6_key_properties_check_after_store_witness :
    (processMessage testEnv (.bool true) emptyGlobals Locals.start
      (.obj schemaMsgNoKPObj)).err = some (.missingField "key_properties") ∧
    (processMessage testEnv (.bool true) emptyGlobals Locals.start
      (.obj schemaMsgNoKPObj)).loc.schemas =
      updAssoc Locals.start.schemas (.str "s") usersSchemaDoc ∧
    (processMessage testEnv (.bool true) emptyGlobals Locals.start
      (.obj schemaMsgNoKPObj)).loc.validators =
      updAssoc Locals.start.validators (.str "s") usersSchemaDoc ∧
    (processMessage testEnv (.bool true) emptyGlobals Locals.start
      (.obj schemaMsgNoKPObj)).loc.key_properties = Locals.start.key_properties ∧
    (getAssoc (processMessage testEnv (.bool true) emptyGlobals Locals.start
      (.obj schemaMsgNoKPObj)).g.stream_lines (.str "s")).getD [] =
      (getAssoc emptyGlobals.stream_lines (.str "s")).getD [] :=
  c6_key_properties_check_after_store testEnv (.bool true) emptyGlobals Locals.start
    schemaMsgNoKPObj (.str "s") usersSchemaDoc rfl rfl rfl rfl rfl

/-- C8: with metadata enrichment enabled, a schema message whose schema
document is an object with no `properties` key aborts with a raw
`KeyError("properties")` — not one of the specification's six error kinds —
and nothing is appended to the stream's buffer, so the registration never
completes. -/
theorem c8_missing_properties_unhandled (env : Env) (flag : Json) (g : Globals)
    (loc : Locals) (mo : JsonObj) (s : Json) (dobj : JsonObj)
    (hflag : truthy flag = true)
    (ht : jget (.obj mo) "type" = some (.str "SCHEMA"))
    (hs : jget (.obj mo) "stream" = some s)
    (hh : hashableJ s = true)
    (hd : jget (.obj mo) "schema" = some (.obj dobj))
    (hp : jget (.obj dobj) "properties" = none)
    (hkp : hasKeyB (.obj mo) "key_properties" = true) :
    (processMessage env flag g loc (.obj mo)).err = some (.keyError "properties") ∧
    isSpecErrorKind (.keyError "properties") = false ∧
    (getAssoc (processMessage env flag g loc (.obj mo)).g.stream_lines s).getD [] =
      (getAssoc g.stream_lines s).getD [] := by
  simp only [hasKeyB] at hkp
  refine ⟨?_, by decide, ?_⟩
  · simp [processMessage, schemaBranch, hasKeyB, ht, hs, hh, hd, hp, hkp, hflag]
  · have hg : (processMessage env flag g loc (.obj mo)).g =
        (if (getAssoc g.stream_lines s).isSome then g
         else { g with stream_lines := g.stream_lines ++ [(s, [])] }) := by
      simp [processMessage, schemaBranch, hasKeyB, ht, hs, hh, hd, hp, hkp, hflag]
    rw [hg, getD_streamInit]

/-- C8 witness: a schema message for stream `t` whose schema document is
`\x7b"type": "object"\x7d` (no `properties`), with `key_properties`
present and metadata enabled, aborts with `KeyError("properties")` and no
buffered line. -/
theorem c8_missing_properties_unhandled_witness :
    (processMessage testEnv (.bool true) emptyGlobals Locals.start
      (.obj noPropsSchemaMsgObj)).err = some (.keyError "properties") ∧
    isSpecErrorKind (.keyError "properties") = false ∧
    (getAssoc (processMessage testEnv (.bool true) emptyGlobals Locals.start
      (.obj noPropsSchemaMsgObj)).g.stream_lines (.str "t")).getD [] =
      (getAssoc emptyGlobals.stream_lines (.str "t")).getD [] :=
  c8_missing_properties_unhandled testEnv (.bool true) emptyGlobals Locals.start
    noPropsSchemaMsgObj (.str "t") (JsonObj.ofList [("type", .str "object")])
    rfl rfl rfl rfl rfl rfl rfl

/-- Shared lemma: with metadata enrichment enabled, an accepted record step
submits the raw record to the validator, succeeds, and appends the
serialization of the message whose record was enriched in place with the
six `_sdc_*` fields. -/
theorem recordStep_raw_validated_enriched_buffered (env : Env) (flag : Json)
    (g : Globals) (loc : Locals) (mo ro : JsonObj) (s vs : Json)
    (hflag : truthy flag = true)
    (ht : jget (.obj mo) "type" = some (.str "RECORD"))
    (hs : jget (.obj mo) "stream" = some s)
    (hh : hashableJ s = true)
    (hr : jget (.obj mo) "record" = some (.obj ro))
    (hreg : (getAssoc loc.schemas s).isSome = true)
    (hv : getAssoc loc.validators s = some vs)
    (hval : validateJ vs (.obj ro) = true) :
    (processMessage env flag g loc (.obj mo)).validated = some (.obj ro) ∧
    (processMessage env flag g loc (.obj mo)).err = none ∧
    hasAllSdc (.obj (ro.updateWith (sdcPairs env loc.tick (.obj mo) (.obj ro)))) = true ∧
    (getAssoc (processMessage env flag g loc (.obj mo)).g.stream_lines s).getD [] =
      (getAssoc g.stream_lines s).getD [] ++
        [dumps (jset (.obj mo) "record"
          (.obj (ro.updateWith (sdcPairs env loc.tick (.obj mo) (.obj ro)))))] := by
  have hred : processMessage env flag g loc (.obj mo) =
      ⟨{ (if (getAssoc g.stream_lines s).isSome then g
          else { g with stream_lines := g.stream_lines ++ [(s, [])] }) with
          stream_lines := appendLine
            (if (getAssoc g.stream_lines s).isSome then g
             else { g with stream_lines := g.stream_lines ++ [(s, [])] }).stream_lines s
            (dumps (jset (.obj mo) "record"
              (.obj (ro.updateWith (sdcPairs env loc.tick (.obj mo) (.obj ro)))))) },
       { loc with state := none, tick := loc.tick + 1 },
       some (.obj ro), none⟩ := by
    simp [processMessage, recordBranch, hasKeyB, ht, hs, hh, hr, hreg, hv, hval, hflag]
  rw [hred]
  refine ⟨rfl, rfl, hasAllSdc_sdcPairs env loc.tick (.obj mo) (.obj ro) ro, ?_⟩
  show (getAssoc (appendLine _ s _) s).getD [] = _
  rw [appendLine, getAssoc_updAssoc_self]
  simp only [Option.getD_some]
  rw [getD_streamInit]

/-- C3 amended: with metadata enrichment enabled, the shape submitted to the
validator is the raw incoming record; the six `_sdc_*` fields are written
onto the record only after successful validation, so the buffered line (not
the validated shape) carries them. -/
theorem c3_enrichment_after_validation (env : Env) (flag : Json) (g : Globals)
    (loc : Locals) (mo ro : JsonObj) (s vs : Json)
    (hflag : truthy flag = true)
    (ht : jget (.obj mo) "type" = some (.str "RECORD"))
    (hs : jget (.obj mo) "stream" = some s)
    (hh : hashableJ s = true)
    (hr : jget (.obj mo) "record" = some (.obj ro))
    (hreg : (getAssoc loc.schemas s).isSome = true)
    (hv : getAssoc loc.validators s = some vs)
    (hval : validateJ vs (.obj ro) = true) :
    (processMessage env flag g loc (.obj mo)).validated = some (.obj ro) ∧
    (processMessage env flag g loc (.obj mo)).err = none ∧
    hasAllSdc (.obj (ro.updateWith (sdcPairs env loc.tick (.obj mo) (.obj ro)))) = true ∧
    (getAssoc (processMessage env flag g loc (.obj mo)).g.stream_lines s).getD [] =
      (getAssoc g.stream_lines s).getD [] ++
        [dumps (jset (.obj mo) "record"
          (.obj (ro.updateWith (sdcPairs env loc.tick (.obj mo) (.obj ro)))))] :=
  recordStep_raw_validated_enriched_buffered env flag g loc mo ro s vs
    hflag ht hs hh hr hreg hv hval

/-- C3 amended witness: on the Scenario A record, processed right after the
schema registration with metadata enabled, the validator sees the raw
record, the step succeeds, and the appended line is the serialization of the
message with the six-field-enriched record. -/
theorem c3_enrichment_after_validation_witness :
    recordStepA.validated = some (.obj rawIdRecordObj) ∧
    recordStepA.err = none ∧
    hasAllSdc (.obj (rawIdRecordObj.updateWith
      (sdcPairs testEnv afterSchemaA.loc.tick (.obj usersRecordMsgObj)
        (.obj rawIdRecordObj)))) = true ∧
    (getAssoc recordStepA.g.stream_lines (.str "users")).getD [] =
      (getAssoc afterSchemaA.g.stream_lines (.str "users")).getD [] ++
        [dumps (jset (.obj usersRecordMsgObj) "record"
          (.obj (rawIdRecordObj.updateWith
            (sdcPairs testEnv afterSchemaA.loc.tick (.obj usersRecordMsgObj)
              (.obj rawIdRecordObj)))))] :=
  c3_enrichment_after_validation testEnv (.bool true) afterSchemaA.g afterSchemaA.loc
    usersRecordMsgObj rawIdRecordObj (.str "users")
    ((getAssoc afterSchemaA.loc.validators (.str "users")).getD .null)
    rfl rfl rfl rfl rfl rfl rfl (by decide)

/-- C9: when the config has no `add_record_metadata` key, the flag read at
the top of `persist_lines` defaults to `True`, so metadata enrichment is
active: registering a schema stores it with its `properties` augmented by
the six `_sdc_*` columns, and an accepted record is buffered enriched with
the six `_sdc_*` fields. -/
theorem c9_default_metadata_enabled (config : Json)
    (hno : jget config "add_record_metadata" = none)
    (env : Env) (g : Globals) (loc : Locals) (mo : JsonObj) (s : Json)
    (dobj pobj : JsonObj)
    (ht : jget (.obj mo) "type" = some (.str "SCHEMA"))
    (hs : jget (.obj mo) "stream" = some s)
    (hh : hashableJ s = true)
    (hd : jget (.obj mo) "schema" = some (.obj dobj))
    (hprops : jget (.obj dobj) "properties" = some (.obj pobj))
    (hkp : hasKeyB (.obj mo) "key_properties" = true)
    (g2 : Globals) (loc2 : Locals) (mo2 ro : JsonObj) (s2 vs : Json)
    (ht2 : jget (.obj mo2) "type" = some (.str "RECORD"))
    (hs2 : jget (.obj mo2) "stream" = some s2)
    (hh2 : hashableJ s2 = true)
    (hr2 : jget (.obj mo2) "record" = some (.obj ro))
    (hreg2 : (getAssoc loc2.schemas s2).isSome = true)
    (hv2 : getAssoc loc2.validators s2 = some vs)
    (hval2 : validateJ vs (.obj ro) = true) :
    (jget config "add_record_metadata").getD (.bool true) = .bool true ∧
    hasAllSdc (.obj (pobj.updateWith metaCols)) = true ∧
    getAssoc (processMessage env ((jget config "add_record_metadata").getD (.bool true))
        g loc (.obj mo)).loc.schemas s =
      some (jset (.obj dobj) "properties" (.obj (pobj.updateWith metaCols))) ∧
    hasAllSdc (.obj (ro.updateWith (sdcPairs env loc2.tick (.obj mo2) (.obj ro)))) = true ∧
    (getAssoc (processMessage env ((jget config "add_record_metadata").getD (.bool true))
        g2 loc2 (.obj mo2)).g.stream_lines s2).getD [] =
      (getAssoc g2.stream_lines s2).getD [] ++
        [dumps (jset (.obj mo2) "record"
          (.obj (ro.updateWith (sdcPairs env loc2.tick (.obj mo2) (.obj ro)))))] := by
  have hflag : (jget config "add_record_metadata").getD (.bool true) = .bool true := by
    rw [hno]; rfl
  have htr : truthy ((jget config "add_record_metadata").getD (.bool true)) = true := by
    rw [hflag]; rfl
  simp only [hasKeyB] at hkp
  refine ⟨hflag, hasAllSdc_metaCols pobj, ?_, hasAllSdc_sdcPairs env loc2.tick
    (.obj mo2) (.obj ro) ro, ?_⟩
  · simp [processMessage, schemaBranch, hasKeyB, ht, hs, hh, hd, hprops, hkp, htr,
      getAssoc_updAssoc_self]
  · rcases recordStep_raw_validated_enriched_buffered env
      ((jget config "add_record_metadata").getD (.bool true)) g2 loc2 mo2 ro s2 vs
      htr ht2 hs2 hh2 hr2 hreg2 hv2 hval2 with ⟨-, -, -, hbuf⟩
    exact hbuf

/-- C9 witness: with the empty config, the flag defaults to `True`; the
Scenario A schema registration stores the augmented schema and the Scenario
A record is buffered enriched with all six `_sdc_*` fields. -/
theorem c9_default_metadata_enabled_witness :
    (jget (Json.mkObj []) "add_record_metadata").getD (.bool true) = .bool true ∧
    hasAllSdc (.obj (usersPropsObj.updateWith metaCols)) = true ∧
    getAssoc (processMessage testEnv
        ((jget (Json.mkObj []) "add_record_metadata").getD (.bool true))
        emptyGlobals Locals.start (.obj usersSchemaMsgObj)).loc.schemas (.str "users") =
      some (jset (.obj usersSchemaDocObj) "properties"
        (.obj (usersPropsObj.updateWith metaCols))) ∧
    hasAllSdc (.obj (rawIdRecordObj.updateWith
      (sdcPairs testEnv afterSchemaA.loc.tick (.obj usersRecordMsgObj)
        (.obj rawIdRecordObj)))) = true ∧
    (getAssoc (processMessage testEnv
        ((jget (Json.mkObj []) "add_record_metadata").getD (.bool true))
        afterSchemaA.g afterSchemaA.loc (.obj usersRecordMsgObj)).g.stream_lines
        (.str "users")).getD [] =
      (getAssoc afterSchemaA.g.stream_lines (.str "users")).getD [] ++
        [dumps (jset (.obj usersRecordMsgObj) "record"
          (.obj (rawIdRecordObj.updateWith
            (sdcPairs testEnv afterSchemaA.loc.tick (.obj usersRecordMsgObj)
              (.obj rawIdRecordObj)))))] :=
  c9_default_metadata_enabled (Json.mkObj []) rfl testEnv emptyGlobals Locals.start
    usersSchemaMsgObj (.str "users") usersSchemaDocObj usersPropsObj
    rfl rfl rfl rfl rfl rfl
    afterSchemaA.g afterSchemaA.loc usersRecordMsgObj rawIdRecordObj (.str "users")
    ((getAssoc afterSchemaA.loc.validators (.str "users")).getD .null)
    rfl rfl rfl rfl rfl rfl (by decide)

end TargetSingerJsonl
